import Mathlib

/-!
Shallow embedding of `src/download_packages.py`.

The script reads a manifest (`collection.json`), loops over package
entries, and shells out to the `git` binary to clone or update each
repository and check out a requested version tag, with a fixed
four-variant fallback sequence for the tag name.

The external world (filesystem and the `git` executable) is abstracted
by a `GitEnv` record of outcome oracles; the embedding of
`clone_and_checkout_package` returns the boolean result of the Python
function together with the ordered trace of external commands it issued
and the warnings it printed, so that claims about command ordering and
about warnings can be stated.  Python-level uncaught exceptions
(`urllib.parse` can raise `ValueError`) are modelled with `Except`.
-/

/-! ### Model of the path component of Python `urllib.parse.urlparse`

`get_repo_name_from_url` (src/download_packages.py lines 64-75) uses
`urlparse(url).path`.  The definitions below model the path component
computed by CPython's `urllib.parse.urlsplit`:
tab/CR/LF characters are removed, a leading `scheme:` is stripped when
the part before the first colon is a valid scheme, a `//netloc` part is
stripped (raising `ValueError "Invalid IPv6 URL"` when the netloc has a
square bracket without its partner), and fragment (`#`) and query (`?`)
suffixes are cut off.  The bracketed-host validation added in newer
CPython versions is not modelled; the whitespace stripping of the raw
URL is not modelled either (neither affects any theorem below).
-/

/-- Characters CPython unconditionally removes from a URL before
splitting (`_UNSAFE_URL_BYTES_TO_REMOVE`). -/
def removeUnsafe (l : List Char) : List Char :=
  l.filter (fun c => !(c == '\t' || c == '\r' || c == '\n'))

/-- Characters allowed in a URL scheme (`scheme_chars` in CPython). -/
def isSchemeChar (c : Char) : Bool :=
  c.isAlpha || c.isDigit || c == '+' || c == '-' || c == '.'

/-- Strip a leading `scheme:` when the text before the first colon is a
non-empty valid scheme starting with a letter. -/
def removeScheme (l : List Char) : List Char :=
  let before := l.takeWhile (fun c => !(c == ':'))
  if before.length < l.length then
    if 0 < before.length then
      if (before.headD ' ').isAlpha && before.all isSchemeChar then
        l.drop (before.length + 1)
      else l
    else l
  else l

/-- Strip a leading `//netloc` part; mismatched square brackets in the
netloc raise `ValueError("Invalid IPv6 URL")` in CPython. -/
def netlocSplit (l : List Char) : Except String (List Char) :=
  match l with
  | '/' :: '/' :: rest =>
      let netloc := rest.takeWhile (fun c => !(c == '/' || c == '?' || c == '#'))
      let remainder := rest.drop netloc.length
      if (netloc.contains '[' && !netloc.contains ']') ||
         (netloc.contains ']' && !netloc.contains '[') then
        Except.error "Invalid IPv6 URL"
      else
        Except.ok remainder
  | _ => Except.ok l

/-- Keep the part of the list before the first occurrence of `c`. -/
def beforeChar (c : Char) (l : List Char) : List Char :=
  l.takeWhile (fun x => !(x == c))

/-- The `path` component of `urllib.parse.urlparse`, or the `ValueError`
message it raises. -/
def urlparsePath (url : String) : Except String String :=
  let l := removeUnsafe url.data
  let l := removeScheme l
  match netlocSplit l with
  | Except.error e => Except.error e
  | Except.ok l => Except.ok (String.mk (beforeChar '?' (beforeChar '#' l)))

/-! ### Python string helpers used by `get_repo_name_from_url` -/

/-- Remove the characters satisfying `p` from both ends of a list
(Python `str.strip` with a one-character set). -/
def stripWhile (p : Char → Bool) (l : List Char) : List Char :=
  ((l.dropWhile p).reverse.dropWhile p).reverse

/-- Python `str.strip(c)` for a single character. -/
def pyStrip (s : String) (c : Char) : String :=
  String.mk (stripWhile (fun x => x == c) s.data)

/-- Python `str.split(sep)` for a one-character separator on a list of
characters; always returns at least one (possibly empty) field. -/
def pySplitChar (sep : Char) : List Char → List (List Char)
  | [] => [[]]
  | c :: cs =>
      match pySplitChar sep cs with
      | [] => [[]]
      | p :: ps => if c = sep then [] :: p :: ps else (c :: p) :: ps

/-- Python `str.split(sep)` for a one-character separator. -/
def pySplitOn (s : String) (sep : Char) : List String :=
  (pySplitChar sep s.data).map String.mk

/-- Python `s.endswith(p)`: the last `len(p)` characters equal `p`. -/
def pyEndsWith (l p : List Char) : Bool :=
  decide (l.drop (l.length - p.length) = p)

/-- Python `url[:-4] if url.endswith(".git") else url`
(src/download_packages.py lines 67-68). -/
def stripDotGit (url : String) : String :=
  if pyEndsWith url.data ".git".data then
    String.mk (url.data.take (url.data.length - 4))
  else url

/-- `get_repo_name_from_url` (src/download_packages.py lines 64-75):
strip one trailing `.git`, take the URL path, strip `/` from both ends,
split on `/`, and return the last field (`"unknown"` when the split
would be empty).  `Except.error` models the uncaught `ValueError` that
`urlparse` can raise. -/
def get_repo_name_from_url (url : String) : Except String String :=
  let url := stripDotGit url
  match urlparsePath url with
  | Except.error e => Except.error e
  | Except.ok p =>
      let path_parts := pySplitOn (pyStrip p '/') '/'
      match path_parts.getLast? with
      | some x => Except.ok x
      | none => Except.ok "unknown"

example : get_repo_name_from_url "https://example.com/org/foo.git" = Except.ok "foo" := rfl
example : get_repo_name_from_url "http://[" = Except.error "Invalid IPv6 URL" := rfl
example : get_repo_name_from_url "" = Except.ok "" := rfl

/-! ### Abstraction of the external world

`GitEnv` records, for one run, the outcome of every external
observation the script can make: whether the working-copy directory
exists (`Path.exists`, line 95), and whether each `git` invocation made
through `run_command` exits with code 0.  The script never inspects
command output for control flow, only `returncode`, so booleans
suffice. -/

structure GitEnv where
  dirExists : String → Bool
  cloneOk : String → Bool
  fetchAllOk : Bool
  fetchTagsOk : Bool
  checkoutOk : String → Bool
  describeOk : Bool
  revParseOk : Bool

/-- One external `git` command issued by the script, in the order the
source issues them (clone line 106, `fetch --all` line 100,
`fetch --tags` line 117, `checkout <ref>` lines 122-135,
`describe --tags --exact-match` line 141, `rev-parse HEAD` line 147). -/
inductive Cmd where
  | clone (url : String)
  | fetchAll
  | fetchTags
  | checkout (ref : String)
  | describeTags
  | revParse
deriving DecidableEq

/-- The warning messages `clone_and_checkout_package` can print
(lines 102, 119, 152). -/
inductive Warn where
  | fetchUpdate
  | fetchTagsFailed
  | verify
deriving DecidableEq

/-- Result of one `clone_and_checkout_package` run: the boolean the
Python function returns, the ordered list of external commands it
issued, and the warnings it printed. -/
structure RunResult where
  success : Bool
  trace : List Cmd
  warnings : List Warn
deriving DecidableEq

def isCheckout : Cmd → Bool
  | Cmd.checkout _ => true
  | _ => false

def isClone : Cmd → Bool
  | Cmd.clone _ => true
  | _ => false

def isFetch : Cmd → Bool
  | Cmd.fetchAll => true
  | Cmd.fetchTags => true
  | _ => false

/-- The checkout references attempted, in order, in a command trace. -/
def checkoutRefs (t : List Cmd) : List String :=
  t.filterMap (fun c => match c with | Cmd.checkout r => some r | _ => none)

/-- Verification step (src/download_packages.py lines 140-155):
`git describe --tags --exact-match`, on failure `git rev-parse HEAD`;
the function returns `True` (line 155) in every case, the outcomes only
select what gets printed. -/
def verifyPhase (env : GitEnv) (t : List Cmd) (w : List Warn) : RunResult :=
  let t1 := t ++ [Cmd.describeTags]
  if env.describeOk then
    { success := true, trace := t1, warnings := w }
  else
    let t2 := t1 ++ [Cmd.revParse]
    if env.revParseOk then
      { success := true, trace := t2, warnings := w }
    else
      { success := true, trace := t2, warnings := w ++ [Warn.verify] }

/-- Resolution phase (src/download_packages.py lines 115-155): fetch
tags (failure is a warning only, lines 117-119), then the nested
four-variant checkout fallback of lines 122-138, then verification. -/
def resolvePhase (env : GitEnv) (version : String) (t : List Cmd) (w : List Warn) :
    RunResult :=
  let t := t ++ [Cmd.fetchTags]
  let w := if env.fetchTagsOk then w else w ++ [Warn.fetchTagsFailed]
  let t := t ++ [Cmd.checkout version]
  if env.checkoutOk version then verifyPhase env t w
  else
    let tagsVersion := "tags/" ++ version
    let t := t ++ [Cmd.checkout tagsVersion]
    if env.checkoutOk tagsVersion then verifyPhase env t w
    else
      let vVersion := "v" ++ version
      let t := t ++ [Cmd.checkout vVersion]
      if env.checkoutOk vVersion then verifyPhase env t w
      else
        let tagsVVersion := "tags/" ++ vVersion
        let t := t ++ [Cmd.checkout tagsVVersion]
        if env.checkoutOk tagsVVersion then verifyPhase env t w
        else { success := false, trace := t, warnings := w }

/-- `clone_and_checkout_package` (src/download_packages.py lines
78-155).  `out` is the `output_dir` parameter (`main` always passes the
default `"packages"`).  If the working-copy directory exists the script
fetches (failure only warns, lines 100-102); otherwise it clones, and a
clone failure returns `False` (line 109).  `Except.error` propagates
the `ValueError` that `get_repo_name_from_url` can raise. -/
def clone_and_checkout_package (env : GitEnv) (out url version : String) :
    Except String RunResult :=
  match get_repo_name_from_url url with
  | Except.error e => Except.error e
  | Except.ok repo_name =>
      let repo_path := out ++ "/" ++ repo_name
      if env.dirExists repo_path then
        Except.ok (resolvePhase env version [Cmd.fetchAll]
          (if env.fetchAllOk then [] else [Warn.fetchUpdate]))
      else if env.cloneOk url then
        Except.ok (resolvePhase env version [Cmd.clone url] [])
      else
        Except.ok { success := false, trace := [Cmd.clone url], warnings := [] }

/-- The command trace of a run (empty when the run raised). -/
def runTrace (env : GitEnv) (out url version : String) : List Cmd :=
  match clone_and_checkout_package env out url version with
  | Except.ok r => r.trace
  | Except.error _ => []

/-- The boolean returned by a run (`false` when the run raised). -/
def runSuccess (env : GitEnv) (out url version : String) : Bool :=
  match clone_and_checkout_package env out url version with
  | Except.ok r => r.success
  | Except.error _ => false

/-- The warnings printed by a run (empty when the run raised). -/
def runWarnings (env : GitEnv) (out url version : String) : List Warn :=
  match clone_and_checkout_package env out url version with
  | Except.ok r => r.warnings
  | Except.error _ => []

/-- The four label variants in the order lines 122-135 try them:
the label verbatim, `tags/` qualified, `v`-prefixed, and `tags/`
qualified `v`-prefixed. -/
def variantOrder (version : String) : List String :=
  [version, "tags/" ++ version, "v" ++ version, "tags/" ++ ("v" ++ version)]

/-- Walk a candidate list in order, recording every attempt, stopping
at the first candidate the oracle accepts: the returned list contains
every failing candidate up to and including the first succeeding one
(all candidates when none succeeds). -/
def tryFirst (co : String → Bool) : List String → List String
  | [] => []
  | v :: vs => if co v then [v] else v :: tryFirst co vs

/-! ### Manifest data model and the `main` loop

`main` (src/download_packages.py lines 158-233) reads
`collection.json`, extracts `data.get("packages", [])`, and loops.
`package.get("url")` and `version_info.get("version")` yield `None`
when the key is absent, and Python's `if not x` treats both `None` and
the empty string (and an empty list) as falsy. -/

/-- One element of a package's `versions` list; `version` is `none`
when the `"version"` key is absent. -/
structure VersionInfo where
  version : Option String
deriving DecidableEq

/-- One element of the manifest's `packages` list; `url` is `none` when
the `"url"` key is absent, `versions` is `[]` when `"versions"` is
absent (line 193 defaults it to `[]`). -/
structure Package where
  url : Option String
  versions : List VersionInfo
deriving DecidableEq

/-- The parsed manifest; `packages` already carries the
`data.get("packages", [])` default of line 177, so a missing key and an
empty list coincide here, as they do in the script. -/
structure Collection where
  packages : List Package
deriving DecidableEq

/-- How far loading `collection.json` got (lines 160-174): the file can
be missing, its JSON invalid, or parsed. -/
inductive ManifestLoad where
  | fileMissing
  | invalidJson
  | ok (data : Collection)
deriving DecidableEq

/-- Python truthiness of an optional string (`if not url`,
`if not version`): falsy when absent or empty. -/
def truthyOpt : Option String → Bool
  | none => false
  | some s => !s.isEmpty

/-- The `version` value of the first version descriptor, if any
(lines 206-207 use `versions[0].get("version")`). -/
def firstVersionLabel (p : Package) : Option String :=
  match p.versions with
  | [] => none
  | vi :: _ => vi.version

/-- A package entry the loop rejects before running any external
command: missing or empty `url`, missing or empty `versions`, or a
first version descriptor without a usable `version` value
(lines 195-212). -/
def badEntry (p : Package) : Bool :=
  !truthyOpt p.url || p.versions.isEmpty || !truthyOpt (firstVersionLabel p)

/-- What one loop iteration (lines 190-218) did with its entry. -/
inductive PkgOutcome where
  | missingUrl
  | missingVersions
  | missingVersion
  | ran (r : RunResult)
deriving DecidableEq

/-- Whether an outcome increments the `failed` counter (the three
`continue` branches and a `False` return all do; lines 195-218). -/
def outcomeFailed : PkgOutcome → Bool
  | PkgOutcome.ran r => !r.success
  | _ => true

/-- The external commands an outcome issued. -/
def outcomeTrace : PkgOutcome → List Cmd
  | PkgOutcome.ran r => r.trace
  | _ => []

/-- One iteration of the `main` loop (lines 190-218): validate the
entry's fields, then call `clone_and_checkout_package`. -/
def processPackage (env : GitEnv) (p : Package) : Except String PkgOutcome :=
  match p.url with
  | none => Except.ok PkgOutcome.missingUrl
  | some u =>
      if u.isEmpty then Except.ok PkgOutcome.missingUrl
      else
        match p.versions with
        | [] => Except.ok PkgOutcome.missingVersions
        | vi :: _ =>
            match vi.version with
            | none => Except.ok PkgOutcome.missingVersion
            | some v =>
                if v.isEmpty then Except.ok PkgOutcome.missingVersion
                else
                  match clone_and_checkout_package env "packages" u v with
                  | Except.error e => Except.error e
                  | Except.ok r => Except.ok (PkgOutcome.ran r)

/-- The `(successful, failed)` counters after the loop of lines
186-218; an `Except.error` models an uncaught exception aborting the
run before the summary. -/
def countPackages (env : GitEnv) : List Package → Except String (Nat × Nat)
  | [] => Except.ok (0, 0)
  | p :: rest =>
      match processPackage env p with
      | Except.error e => Except.error e
      | Except.ok o =>
          match countPackages env rest with
          | Except.error e => Except.error e
          | Except.ok (s, f) =>
              if outcomeFailed o then Except.ok (s, f + 1)
              else Except.ok (s + 1, f)

/-- Whether an entry completed and was counted successful. -/
def entrySucceeded (env : GitEnv) (p : Package) : Bool :=
  match processPackage env p with
  | Except.ok o => !outcomeFailed o
  | Except.error _ => false

/-- `main` (lines 158-233) as an exit-code computation: `sys.exit(1)`
for a missing file, invalid JSON, an empty `packages` list (lines
161-180), or a positive `failed` count (line 231); falling off the end
of `main` exits 0.  `Except.error` is an uncaught exception. -/
def mainRun (env : GitEnv) (inp : ManifestLoad) : Except String Nat :=
  match inp with
  | ManifestLoad.fileMissing => Except.ok 1
  | ManifestLoad.invalidJson => Except.ok 1
  | ManifestLoad.ok data =>
      if data.packages.isEmpty then Except.ok 1
      else
        match countPackages env data.packages with
        | Except.error e => Except.error e
        | Except.ok (_, f) => if 0 < f then Except.ok 1 else Except.ok 0

/-- The process exit status: an uncaught exception makes the
interpreter exit with status 1. -/
def mainExitCode (env : GitEnv) (inp : ManifestLoad) : Nat :=
  match mainRun env inp with
  | Except.ok c => c
  | Except.error _ => 1

/-! ### Characterization lemmas -/

@[simp] theorem checkoutRefs_nil : checkoutRefs [] = [] := rfl

@[simp] theorem checkoutRefs_cons_clone (u : String) (t : List Cmd) :
    checkoutRefs (Cmd.clone u :: t) = checkoutRefs t := rfl

@[simp] theorem checkoutRefs_cons_fetchAll (t : List Cmd) :
    checkoutRefs (Cmd.fetchAll :: t) = checkoutRefs t := rfl

@[simp] theorem checkoutRefs_cons_fetchTags (t : List Cmd) :
    checkoutRefs (Cmd.fetchTags :: t) = checkoutRefs t := rfl

@[simp] theorem checkoutRefs_cons_checkout (r : String) (t : List Cmd) :
    checkoutRefs (Cmd.checkout r :: t) = r :: checkoutRefs t := rfl

@[simp] theorem checkoutRefs_cons_describeTags (t : List Cmd) :
    checkoutRefs (Cmd.describeTags :: t) = checkoutRefs t := rfl

@[simp] theorem checkoutRefs_cons_revParse (t : List Cmd) :
    checkoutRefs (Cmd.revParse :: t) = checkoutRefs t := rfl

@[simp] theorem checkoutRefs_append (a b : List Cmd) :
    checkoutRefs (a ++ b) = checkoutRefs a ++ checkoutRefs b := by
  simp [checkoutRefs]

@[simp] theorem checkoutRefs_map_checkout (l : List String) :
    checkoutRefs (l.map Cmd.checkout) = l := by
  induction l with
  | nil => rfl
  | cons x xs ih => simp [ih]

@[simp] theorem checkoutRefs_ite (c : Prop) [Decidable c] (a b : List Cmd) :
    checkoutRefs (if c then a else b) =
      if c then checkoutRefs a else checkoutRefs b := by
  split <;> rfl

/-- Full characterization of the verification step: it always reports
success, appends only read-only query commands to the trace, and at
most one warning. -/
theorem verifyPhase_eq (env : GitEnv) (t : List Cmd) (w : List Warn) :
    verifyPhase env t w =
      { success := true,
        trace := t ++ (if env.describeOk then [Cmd.describeTags]
                       else [Cmd.describeTags, Cmd.revParse]),
        warnings := w ++ (if env.describeOk then []
                          else if env.revParseOk then [] else [Warn.verify]) } := by
  unfold verifyPhase
  cases hd : env.describeOk <;> cases hr : env.revParseOk <;> simp

/-- Full characterization of the resolution phase: the attempted
checkout references follow `variantOrder` until the first success, the
final result is success exactly when some variant checks out, the tags
fetch contributes at most a warning, and verification runs only after a
successful checkout. -/
theorem resolvePhase_eq (env : GitEnv) (version : String) (t : List Cmd) (w : List Warn) :
    resolvePhase env version t w =
      { success := (variantOrder version).any env.checkoutOk,
        trace := t ++ [Cmd.fetchTags] ++
          (tryFirst env.checkoutOk (variantOrder version)).map Cmd.checkout ++
          (if (variantOrder version).any env.checkoutOk then
             (if env.describeOk then [Cmd.describeTags]
              else [Cmd.describeTags, Cmd.revParse])
           else []),
        warnings :=
          (if env.fetchTagsOk then w else w ++ [Warn.fetchTagsFailed]) ++
          (if (variantOrder version).any env.checkoutOk then
             (if env.describeOk then []
              else if env.revParseOk then [] else [Warn.verify])
           else []) } := by
  unfold resolvePhase
  cases h1 : env.checkoutOk version <;>
    cases h2 : env.checkoutOk ("tags/" ++ version) <;>
      cases h3 : env.checkoutOk ("v" ++ version) <;>
        cases h4 : env.checkoutOk ("tags/" ++ ("v" ++ version)) <;>
          simp [verifyPhase_eq, variantOrder, tryFirst, h1, h2, h3, h4]

/-- When the working copy exists, `clone_and_checkout_package` goes
through the update branch (lines 95-102) and then resolves. -/
theorem clone_and_checkout_dir (env : GitEnv) (out url version name : String)
    (hname : get_repo_name_from_url url = Except.ok name)
    (hdir : env.dirExists (out ++ "/" ++ name) = true) :
    clone_and_checkout_package env out url version =
      Except.ok (resolvePhase env version [Cmd.fetchAll]
        (if env.fetchAllOk then [] else [Warn.fetchUpdate])) := by
  unfold clone_and_checkout_package
  rw [hname]
  simp [hdir]

/-- When the working copy is absent and the clone succeeds,
`clone_and_checkout_package` goes through the clone branch
(lines 103-110) and then resolves. -/
theorem clone_and_checkout_clone (env : GitEnv) (out url version name : String)
    (hname : get_repo_name_from_url url = Except.ok name)
    (hdir : env.dirExists (out ++ "/" ++ name) = false)
    (hclone : env.cloneOk url = true) :
    clone_and_checkout_package env out url version =
      Except.ok (resolvePhase env version [Cmd.clone url] []) := by
  unfold clone_and_checkout_package
  rw [hname]
  simp [hdir, hclone]

/-- The first attempted reference in the resolution order is always the
version label itself. -/
theorem tryFirst_variantOrder_head (co : String → Bool) (version : String) :
    ∃ t, tryFirst co (variantOrder version) = version :: t := by
  unfold variantOrder tryFirst
  split
  · exact ⟨[], rfl⟩
  · exact ⟨_, rfl⟩

/-- A Python one-character `split` never produces an empty field
list. -/
theorem pySplitChar_ne_nil (sep : Char) (l : List Char) :
    pySplitChar sep l ≠ [] := by
  induction l with
  | nil => simp [pySplitChar]
  | cons c cs ih =>
      unfold pySplitChar
      cases h : pySplitChar sep cs with
      | nil => simp
      | cons p ps => simp only [h]; split <;> simp

/-- If every entry succeeds, the loop completes counting
`(length, 0)`. -/
theorem countPackages_all_ok (env : GitEnv) (pkgs : List Package)
    (h : ∀ p ∈ pkgs, entrySucceeded env p = true) :
    countPackages env pkgs = Except.ok (pkgs.length, 0) := by
  induction pkgs with
  | nil => rfl
  | cons p rest ih =>
      have hp := h p (List.mem_cons_self p rest)
      unfold entrySucceeded at hp
      unfold countPackages
      cases hpp : processPackage env p with
      | error e => rw [hpp] at hp; simp at hp
      | ok o =>
          rw [hpp] at hp
          simp at hp
          rw [ih (fun q hq => h q (List.mem_cons_of_mem p hq))]
          simp [hp]
  
/-- If the loop completes with a zero `failed` counter, every entry
succeeded. -/
theorem countPackages_zero_failed (env : GitEnv) (pkgs : List Package) (s : Nat)
    (h : countPackages env pkgs = Except.ok (s, 0)) :
    ∀ p ∈ pkgs, entrySucceeded env p = true := by
  induction pkgs generalizing s with
  | nil => simp
  | cons p rest ih =>
      unfold countPackages at h
      cases hpp : processPackage env p with
      | error e => rw [hpp] at h; simp at h
      | ok o =>
          rw [hpp] at h
          cases hc : countPackages env rest with
          | error e => rw [hc] at h; simp at h
          | ok sf =>
              obtain ⟨s', f'⟩ := sf
              rw [hc] at h
              simp at h
              cases hof : outcomeFailed o with
              | true => rw [hof] at h; simp at h
              | false =>
                  rw [hof] at h
                  simp at h
                  obtain ⟨hs, hf⟩ := h
                  intro q hq
                  rcases List.mem_cons.mp hq with rfl | hq'
                  · unfold entrySucceeded
                    rw [hpp]
                    simp [hof]
                  · exact ih s' (by rw [hc, hf]) q hq'

/-! ### Concrete environments used by the scenario claims and the
witnesses -/

/-- URL of the spec's scenario manifest. -/
def fooUrl : String := "https://example.com/org/foo.git"

/-- Tag registry of the scenario: tag `v1.2.0` exists, `1.2.0` does
not. -/
def fooTags : List String := ["v1.2.0"]

/-- A checkout model in which checking out a reference succeeds exactly
when the reference names an existing tag, either verbatim or with the
`tags/` qualifier. -/
def refNamesTag (tags : List String) (r : String) : Bool :=
  tags.any (fun t => r == t || r == "tags/" ++ t)

/-- Scenario world: no working copy yet, clone succeeds, fetches
succeed, checkout follows `refNamesTag fooTags`, verification
succeeds. -/
def fooEnv : GitEnv :=
  { dirExists := fun _ => false
    cloneOk := fun _ => true
    fetchAllOk := true
    fetchTagsOk := true
    checkoutOk := refNamesTag fooTags
    describeOk := true
    revParseOk := true }

/-- The scenario manifest
`packages = [(url = fooUrl, versions = [version = 1.2.0])]`. -/
def fooManifest : Collection :=
  { packages := [{ url := some fooUrl, versions := [{ version := some "1.2.0" }] }] }

/-- A world where everything succeeds and no working copy exists. -/
def envAllOk : GitEnv :=
  { dirExists := fun _ => false
    cloneOk := fun _ => true
    fetchAllOk := true
    fetchTagsOk := true
    checkoutOk := fun _ => true
    describeOk := true
    revParseOk := true }

/-- Like `envAllOk` but the working copy already exists. -/
def envDir : GitEnv := { envAllOk with dirExists := fun _ => true }

/-- Like `envDir` but `git fetch --all` fails. -/
def envDirNoFetch : GitEnv := { envDir with fetchAllOk := false }

/-- Like `envAllOk` but `git fetch --tags` fails. -/
def envNoTagsFetch : GitEnv := { envAllOk with fetchTagsOk := false }

/-- `env` with the two verification query outcomes replaced. -/
def envWithVerify (env : GitEnv) (d r : Bool) : GitEnv :=
  { env with describeOk := d, revParseOk := r }

example : runTrace fooEnv "packages" fooUrl "1.2.0" =
    [Cmd.clone fooUrl, Cmd.fetchTags, Cmd.checkout "1.2.0",
     Cmd.checkout "tags/1.2.0", Cmd.checkout "v1.2.0", Cmd.describeTags] := by decide
example : runSuccess fooEnv "packages" fooUrl "1.2.0" = true := by decide

/-! ### The claims -/

/-- Claim C1: for every package entry that reaches version resolution
with a non-empty version label, the attempted checkout references are
exactly `tryFirst` of the variant order `label`, `tags/label`,
`v label`, `tags/v label`: a later variant is attempted only when every
earlier one failed, and the first success stops all further
attempts. -/
theorem clone_and_checkout_variant_order (env : GitEnv)
    (out url version name : String)
    (hname : get_repo_name_from_url url = Except.ok name)
    (hv : version ≠ "")
    (hres : (env.dirExists (out ++ "/" ++ name) || env.cloneOk url) = true) :
    checkoutRefs (runTrace env out url version) =
      tryFirst env.checkoutOk (variantOrder version) := by
  unfold runTrace
  cases hd : env.dirExists (out ++ "/" ++ name) with
  | true =>
      rw [clone_and_checkout_dir env out url version name hname hd, resolvePhase_eq]
      simp
  | false =>
      have hclone : env.cloneOk url = true := by
        rw [hd] at hres; simpa using hres
      rw [clone_and_checkout_clone env out url version name hname hd hclone,
        resolvePhase_eq]
      simp

/-- Claim C1 witness: in a world where every command succeeds, cloning
`fooUrl` at version `1.2.0` attempts exactly one checkout, of the
verbatim label. -/
theorem clone_and_checkout_variant_order_witness :
    ("1.2.0" : String) ≠ "" ∧
    (envAllOk.dirExists ("packages" ++ "/" ++ "foo") || envAllOk.cloneOk fooUrl) = true ∧
    checkoutRefs (runTrace envAllOk "packages" fooUrl "1.2.0") =
      tryFirst envAllOk.checkoutOk (variantOrder "1.2.0") :=
  ⟨by decide, rfl,
    clone_and_checkout_variant_order envAllOk "packages" fooUrl "1.2.0" "foo"
      rfl (by decide) rfl⟩

/-- Claim C2 counterexample: under the claim's own checkout model
(checkout succeeds exactly when the reference names an existing tag,
`v1.2.0` present, `1.2.0` absent), the reference `v1.2.0` names the
existing tag, so the THIRD resolution attempt already succeeds: the
attempted references are exactly the first three variants, the fourth
variant `tags/v1.2.0` is never attempted, contradicting the claim that
the first three attempts fail and the fourth succeeds. -/
theorem scenario_third_attempt_succeeds :
    checkoutRefs (runTrace fooEnv "packages" fooUrl "1.2.0") =
      ["1.2.0", "tags/1.2.0", "v1.2.0"] ∧
    fooEnv.checkoutOk "v1.2.0" = true ∧
    Cmd.checkout "tags/v1.2.0" ∉ runTrace fooEnv "packages" fooUrl "1.2.0" ∧
    runSuccess fooEnv "packages" fooUrl "1.2.0" = true := by
  refine ⟨by decide, by decide, by decide, by decide⟩

/-- Claim C2 amended: for the scenario manifest, with tag `v1.2.0`
present and `1.2.0` absent, the first two resolution attempts
(`1.2.0`, `tags/1.2.0`) fail, the third attempt `v1.2.0` succeeds and
stops resolution, and the package is counted successful
(`successful = 1`, `failed = 0`). -/
theorem scenario_foo_counted_successful :
    fooEnv.checkoutOk "1.2.0" = false ∧
    fooEnv.checkoutOk "tags/1.2.0" = false ∧
    fooEnv.checkoutOk "v1.2.0" = true ∧
    checkoutRefs (runTrace fooEnv "packages" fooUrl "1.2.0") =
      ["1.2.0", "tags/1.2.0", "v1.2.0"] ∧
    countPackages fooEnv fooManifest.packages = Except.ok (1, 0) := by
  refine ⟨by decide, by decide, by decide, by decide, rfl⟩

/-- Claim C3: whenever `main` reaches the final summary (the loop over
a non-empty packages list completed with counters `(s, f)`), each
iteration incremented exactly one counter, so
`s + f = ` number of entries. -/
theorem summary_counts_partition (env : GitEnv) (pkgs : List Package) (s f : Nat)
    (hne : pkgs ≠ [])
    (h : countPackages env pkgs = Except.ok (s, f)) :
    s + f = pkgs.length := by
  clear hne
  induction pkgs generalizing s f with
  | nil =>
      simp [countPackages] at h
      obtain ⟨h1, h2⟩ := h
      simp only [List.length_nil]
      omega
  | cons p rest ih =>
      unfold countPackages at h
      cases hpp : processPackage env p with
      | error e => rw [hpp] at h; simp at h
      | ok o =>
          rw [hpp] at h
          cases hc : countPackages env rest with
          | error e => rw [hc] at h; simp at h
          | ok sf =>
              obtain ⟨s', f'⟩ := sf
              rw [hc] at h
              simp at h
              have hsum := ih s' f' hc
              cases hof : outcomeFailed o with
              | true => rw [hof] at h; simp at h; simp [← h.1, ← h.2]; omega
              | false => rw [hof] at h; simp at h; simp [← h.1, ← h.2]; omega

/-- Claim C3 witness: the scenario manifest processed in an
all-succeeding world gives counters `(1, 0)` and `1 + 0 = 1`. -/
theorem summary_counts_partition_witness :
    fooManifest.packages ≠ [] ∧
    countPackages envAllOk fooManifest.packages = Except.ok (1, 0) ∧
    1 + 0 = fooManifest.packages.length :=
  ⟨by simp [fooManifest], rfl,
    summary_counts_partition envAllOk fooManifest.packages 1 0
      (by simp [fooManifest]) rfl⟩

/-- Claim C4: the exit status is 0 exactly when the manifest was found,
parsed, non-empty, and every package entry was counted successful; a
missing file, invalid JSON, an empty (or missing) packages list, a
failed entry, or an uncaught exception all exit nonzero. -/
theorem exit_zero_iff_all_succeeded (env : GitEnv) (inp : ManifestLoad) :
    mainExitCode env inp = 0 ↔
      ∃ data, inp = ManifestLoad.ok data ∧ data.packages ≠ [] ∧
        ∀ p ∈ data.packages, entrySucceeded env p = true := by
  constructor
  · intro h
    cases inp with
    | fileMissing => simp [mainExitCode, mainRun] at h
    | invalidJson => simp [mainExitCode, mainRun] at h
    | ok data =>
        simp only [mainExitCode, mainRun] at h
        refine ⟨data, rfl, ?_, ?_⟩
        · cases hne : data.packages.isEmpty with
          | true => rw [hne] at h; simp at h
          | false => simpa using hne
        · cases hne : data.packages.isEmpty with
          | true => rw [hne] at h; simp at h
          | false =>
              rw [hne] at h
              simp at h
              cases hc : countPackages env data.packages with
              | error e => rw [hc] at h; simp at h
              | ok sf =>
                  obtain ⟨s, f⟩ := sf
                  rw [hc] at h
                  simp at h
                  by_cases hf : 0 < f
                  · rw [if_pos hf] at h
                    simp at h
                  · have hf0 : f = 0 := by omega
                    subst hf0
                    exact countPackages_zero_failed env data.packages s hc
  · rintro ⟨data, rfl, hne, hall⟩
    simp only [mainExitCode, mainRun]
    rw [countPackages_all_ok env data.packages hall]
    have hemp : data.packages.isEmpty = false := by
      cases hp : data.packages with
      | nil => exact absurd hp hne
      | cons a l => simp [hp]
    rw [hemp]
    simp

/-- Claim C5: a package entry whose `url` is missing or empty, whose
`versions` list is missing or empty, or whose first version descriptor
has no usable `version` value, is rejected before any external command:
the iteration outcome is one of the three skip outcomes (never `ran`),
it issues no command, and prepending the entry to any completing run
increments exactly the `failed` counter. -/
theorem invalid_entry_failed_without_commands (env : GitEnv) (p : Package)
    (h : badEntry p = true) :
    (processPackage env p = Except.ok PkgOutcome.missingUrl ∨
     processPackage env p = Except.ok PkgOutcome.missingVersions ∨
     processPackage env p = Except.ok PkgOutcome.missingVersion) ∧
    (∀ r, processPackage env p ≠ Except.ok (PkgOutcome.ran r)) ∧
    (∀ o, processPackage env p = Except.ok o →
        outcomeFailed o = true ∧ outcomeTrace o = []) ∧
    (∀ rest s f, countPackages env rest = Except.ok (s, f) →
        countPackages env (p :: rest) = Except.ok (s, f + 1)) := by
  obtain ⟨u, vs⟩ := p
  have hskip : processPackage env ⟨u, vs⟩ = Except.ok PkgOutcome.missingUrl ∨
      processPackage env ⟨u, vs⟩ = Except.ok PkgOutcome.missingVersions ∨
      processPackage env ⟨u, vs⟩ = Except.ok PkgOutcome.missingVersion := by
    cases u with
    | none => exact Or.inl rfl
    | some u =>
        cases hu : u.isEmpty with
        | true =>
            refine Or.inl ?_
            unfold processPackage
            simp [hu]
        | false =>
            simp [badEntry, truthyOpt, firstVersionLabel, hu] at h
            cases vs with
            | nil =>
                refine Or.inr (Or.inl ?_)
                unfold processPackage
                simp [hu]
            | cons vi rest =>
                refine Or.inr (Or.inr ?_)
                simp at h
                cases hvv : vi.version with
                | none => unfold processPackage; simp [hu, hvv]
                | some v =>
                    rw [hvv] at h
                    simp at h
                    unfold processPackage
                    simp [hu, hvv, h]
  refine ⟨hskip, ?_, ?_, ?_⟩
  · intro r hr
    rcases hskip with hs | hs | hs <;> rw [hs] at hr <;> simp at hr
  · intro o ho
    rcases hskip with hs | hs | hs <;> rw [hs] at ho <;> simp at ho <;>
      simp [← ho, outcomeFailed, outcomeTrace]
  · intro rest s f hc
    unfold countPackages
    rcases hskip with hs | hs | hs <;> rw [hs, hc] <;> simp [outcomeFailed]

/-- Claim C5 witness: an entry without a `url` is skipped as
`missingUrl` and counted failed. -/
theorem invalid_entry_failed_without_commands_witness :
    badEntry { url := none, versions := [{ version := some "1.0" }] } = true ∧
    (processPackage envAllOk { url := none, versions := [{ version := some "1.0" }] } =
       Except.ok PkgOutcome.missingUrl ∨
     processPackage envAllOk { url := none, versions := [{ version := some "1.0" }] } =
       Except.ok PkgOutcome.missingVersions ∨
     processPackage envAllOk { url := none, versions := [{ version := some "1.0" }] } =
       Except.ok PkgOutcome.missingVersion) :=
  ⟨rfl, (invalid_entry_failed_without_commands envAllOk
    { url := none, versions := [{ version := some "1.0" }] } rfl).1⟩

/-- Checkout commands are not clone commands, element-wise. -/
theorem map_checkout_all_not_clone (l : List String) :
    ((l.map Cmd.checkout).all fun c => !isClone c) = true := by
  induction l with
  | nil => rfl
  | cons x xs ih => simp [isClone, ih]

/-- Claim C6: when the working-copy directory derived from the URL
already exists, the run never issues a clone command, and every command
before the first checkout (the start of resolution) is a fetch. -/
theorem existing_dir_no_clone (env : GitEnv) (out url version name : String)
    (hname : get_repo_name_from_url url = Except.ok name)
    (hdir : env.dirExists (out ++ "/" ++ name) = true) :
    (runTrace env out url version).all (fun c => !isClone c) = true ∧
    ((runTrace env out url version).takeWhile (fun c => !isCheckout c)).all
      isFetch = true := by
  unfold runTrace
  rw [clone_and_checkout_dir env out url version name hname hdir, resolvePhase_eq]
  obtain ⟨t, ht⟩ := tryFirst_variantOrder_head env.checkoutOk version
  rw [ht]
  constructor
  · have htail : ∀ (P Q : Bool),
        ((if P = true then
            (if Q = true then [Cmd.describeTags] else [Cmd.describeTags, Cmd.revParse])
          else []).all fun c => !isClone c) = true := by
      intro P Q
      cases P <;> cases Q <;> rfl
    simp [List.all_append, map_checkout_all_not_clone, isClone, htail]
    intro x x1 hx1 hco hx
    cases hdo : env.describeOk <;> rw [hdo] at hx <;> simp at hx
    · rcases hx with rfl | rfl <;> rfl
    · subst hx; rfl
  · simp [List.takeWhile_cons, isCheckout, isFetch]

/-- Claim C6 witness: with an existing working copy, the run on
`fooUrl` issues no clone and only fetches before resolution. -/
theorem existing_dir_no_clone_witness :
    envDir.dirExists ("packages" ++ "/" ++ "foo") = true ∧
    ((runTrace envDir "packages" fooUrl "1.2.0").all (fun c => !isClone c) = true ∧
     ((runTrace envDir "packages" fooUrl "1.2.0").takeWhile
        (fun c => !isCheckout c)).all isFetch = true) :=
  ⟨rfl, existing_dir_no_clone envDir "packages" fooUrl "1.2.0" "foo" rfl rfl⟩

/-- Claim C7: with an existing working copy and a failing
`git fetch --all`, the run prints the update warning, still reaches the
checkout sequence, and its result is exactly whether some variant
checks out — the fetch failure never aborts the entry. -/
theorem fetch_failure_only_warns (env : GitEnv) (out url version name : String)
    (hname : get_repo_name_from_url url = Except.ok name)
    (hdir : env.dirExists (out ++ "/" ++ name) = true)
    (hfetch : env.fetchAllOk = false) :
    Warn.fetchUpdate ∈ runWarnings env out url version ∧
    Cmd.checkout version ∈ runTrace env out url version ∧
    runSuccess env out url version = (variantOrder version).any env.checkoutOk := by
  unfold runWarnings runTrace runSuccess
  rw [clone_and_checkout_dir env out url version name hname hdir, resolvePhase_eq]
  obtain ⟨t, ht⟩ := tryFirst_variantOrder_head env.checkoutOk version
  rw [ht]
  refine ⟨?_, ?_, rfl⟩
  · rw [hfetch]
    cases hft : env.fetchTagsOk <;> simp
  · simp

/-- Claim C7 witness: existing working copy, failing fetch, everything
else succeeding — warning printed, checkout attempted, entry
successful. -/
theorem fetch_failure_only_warns_witness :
    envDirNoFetch.dirExists ("packages" ++ "/" ++ "foo") = true ∧
    envDirNoFetch.fetchAllOk = false ∧
    (Warn.fetchUpdate ∈ runWarnings envDirNoFetch "packages" fooUrl "1.2.0" ∧
     Cmd.checkout "1.2.0" ∈ runTrace envDirNoFetch "packages" fooUrl "1.2.0" ∧
     runSuccess envDirNoFetch "packages" fooUrl "1.2.0" =
       (variantOrder "1.2.0").any envDirNoFetch.checkoutOk) :=
  ⟨rfl, rfl,
    fetch_failure_only_warns envDirNoFetch "packages" fooUrl "1.2.0" "foo" rfl rfl rfl⟩

/-- Claim C9: for every entry that reaches resolution (existing working
copy, or successful clone), a failing tags-only fetch contributes only
a warning: the checkout sequence still runs and alone determines the
result. -/
theorem tags_fetch_failure_only_warns (env : GitEnv) (out url version name : String)
    (hname : get_repo_name_from_url url = Except.ok name)
    (hres : (env.dirExists (out ++ "/" ++ name) || env.cloneOk url) = true)
    (htags : env.fetchTagsOk = false) :
    Warn.fetchTagsFailed ∈ runWarnings env out url version ∧
    Cmd.checkout version ∈ runTrace env out url version ∧
    runSuccess env out url version = (variantOrder version).any env.checkoutOk := by
  unfold runWarnings runTrace runSuccess
  obtain ⟨t, ht⟩ := tryFirst_variantOrder_head env.checkoutOk version
  cases hd : env.dirExists (out ++ "/" ++ name) with
  | true =>
      rw [clone_and_checkout_dir env out url version name hname hd, resolvePhase_eq, ht]
      refine ⟨?_, by simp, rfl⟩
      rw [htags]
      simp
  | false =>
      have hclone : env.cloneOk url = true := by
        rw [hd] at hres; simpa using hres
      rw [clone_and_checkout_clone env out url version name hname hd hclone,
        resolvePhase_eq, ht]
      refine ⟨?_, by simp, rfl⟩
      rw [htags]
      simp

/-- Claim C9 witness: clone succeeds, tags fetch fails — warning
printed, checkout attempted, entry successful. -/
theorem tags_fetch_failure_only_warns_witness :
    (envNoTagsFetch.dirExists ("packages" ++ "/" ++ "foo") ||
      envNoTagsFetch.cloneOk fooUrl) = true ∧
    envNoTagsFetch.fetchTagsOk = false ∧
    (Warn.fetchTagsFailed ∈ runWarnings envNoTagsFetch "packages" fooUrl "1.2.0" ∧
     Cmd.checkout "1.2.0" ∈ runTrace envNoTagsFetch "packages" fooUrl "1.2.0" ∧
     runSuccess envNoTagsFetch "packages" fooUrl "1.2.0" =
       (variantOrder "1.2.0").any envNoTagsFetch.checkoutOk) :=
  ⟨rfl, rfl,
    tags_fetch_failure_only_warns envNoTagsFetch "packages" fooUrl "1.2.0" "foo"
      rfl rfl rfl⟩

/-- Claim C8: for every entry that reaches resolution and for which
some checkout variant succeeds, the run returns `True` whatever the two
post-checkout verification queries (`describe --tags --exact-match` and
`rev-parse HEAD`) return: verification never changes the outcome. -/
theorem verification_never_changes_outcome (env : GitEnv) (d r : Bool)
    (out url version name : String)
    (hname : get_repo_name_from_url url = Except.ok name)
    (hres : (env.dirExists (out ++ "/" ++ name) || env.cloneOk url) = true)
    (hco : (variantOrder version).any env.checkoutOk = true) :
    runSuccess (envWithVerify env d r) out url version = true := by
  unfold runSuccess
  cases hd : env.dirExists (out ++ "/" ++ name) with
  | true =>
      rw [clone_and_checkout_dir (envWithVerify env d r) out url version name hname hd,
        resolvePhase_eq]
      simpa [envWithVerify] using hco
  | false =>
      have hclone : env.cloneOk url = true := by
        rw [hd] at hres; simpa using hres
      rw [clone_and_checkout_clone (envWithVerify env d r) out url version name hname
        hd hclone, resolvePhase_eq]
      simpa [envWithVerify] using hco

/-- Claim C8 witness: in the scenario world with both verification
queries failing, the run still returns success. -/
theorem verification_never_changes_outcome_witness :
    (fooEnv.dirExists ("packages" ++ "/" ++ "foo") || fooEnv.cloneOk fooUrl) = true ∧
    (variantOrder "1.2.0").any fooEnv.checkoutOk = true ∧
    runSuccess (envWithVerify fooEnv false false) "packages" fooUrl "1.2.0" = true :=
  ⟨rfl, by decide,
    verification_never_changes_outcome fooEnv false false "packages" fooUrl "1.2.0"
      "foo" rfl rfl (by decide)⟩

/-- Claim C10 counterexample: `get_repo_name_from_url` is not total.
On the input `"http://["` the URL parser raises
`ValueError("Invalid IPv6 URL")` (the netloc `[` has an unmatched
square bracket), the exception propagates out of the function, and no
path segment is ever returned. -/
theorem get_repo_name_raises_on_bracket :
    get_repo_name_from_url "http://[" = Except.error "Invalid IPv6 URL" := rfl

/-- Claim C10 amended: on every input string the URL parser accepts
(returning path `p`), splitting the stripped path on `/` yields a
non-empty list, so `get_repo_name_from_url` returns the final path
segment and the `"unknown"` fallback branch is unreachable — the result
does not depend on the fallback value. -/
theorem get_repo_name_last_segment (url p : String)
    (hp : urlparsePath (stripDotGit url) = Except.ok p) :
    pySplitOn (pyStrip p '/') '/' ≠ [] ∧
    get_repo_name_from_url url =
      Except.ok ((pySplitOn (pyStrip p '/') '/').getLast?.getD "unknown") ∧
    (pySplitOn (pyStrip p '/') '/').getLast?.getD "unknown" =
      (pySplitOn (pyStrip p '/') '/').getLast?.getD "" := by
  have hne : pySplitOn (pyStrip p '/') '/' ≠ [] := by
    unfold pySplitOn
    simp only [ne_eq, List.map_eq_nil_iff]
    exact pySplitChar_ne_nil '/' (pyStrip p '/').data
  refine ⟨hne, ?_, ?_⟩
  · simp only [get_repo_name_from_url]
    rw [hp]
    cases hl : (pySplitOn (pyStrip p '/') '/').getLast? with
    | none => simp [hl]
    | some x => simp [hl]
  · cases hl : (pySplitOn (pyStrip p '/') '/').getLast? with
    | none => exact absurd (List.getLast?_eq_none_iff.mp hl) hne
    | some x => rfl

/-- Claim C10 witness: the scenario URL parses to path `/org/foo`, the
split is non-empty, and the function returns its last segment
`foo`. -/
theorem get_repo_name_last_segment_witness :
    urlparsePath (stripDotGit "https://example.com/org/foo.git") =
      Except.ok "/org/foo" ∧
    pySplitOn (pyStrip "/org/foo" '/') '/' ≠ [] ∧
    get_repo_name_from_url "https://example.com/org/foo.git" =
      Except.ok ((pySplitOn (pyStrip "/org/foo" '/') '/').getLast?.getD "unknown") :=
  ⟨rfl,
    (get_repo_name_last_segment "https://example.com/org/foo.git" "/org/foo" rfl).1,
    (get_repo_name_last_segment "https://example.com/org/foo.git" "/org/foo" rfl).2.1⟩
